import Mathlib

/-!
Verification of the oyna-ai-system model pipeline (tools/validate_models.py and
tools/generate_manifest.py): type classification, manifest extraction and
assembly, schema validation reporting, and serialization round-trips.
-/

namespace Oyna

/-- True when the character list starts with the given needle. -/
def listStartsWith : List Char → List Char → Bool
  | _, [] => true
  | [], _ :: _ => false
  | h :: t, n :: ns => h == n && listStartsWith t ns

/-- True when the needle occurs as a contiguous run inside the haystack. -/
def listContainsSub : List Char → List Char → Bool
  | [], needle => needle.isEmpty
  | h :: t, needle => listStartsWith (h :: t) needle || listContainsSub t needle

/-- Python lower(): map each character to its lower-case form. The standard
library String.toLower computes the same character map through a byte-position
recursion; this data-level form is used so terms reduce. -/
def strLower (s : String) : String :=
  String.mk (s.data.map Char.toLower)

/-- Python `needle in hay` on strings. -/
def strContains (hay needle : String) : Bool :=
  listContainsSub hay.toList needle.toList

/-- tools/validate_models.py detect_model_type: classify a file stem by ordered
substring rules over the lower-cased name; the first matching rule wins. -/
def detect_model_type (stem : String) : Option String :=
  let name := strLower stem
  if strContains name "api_contract" then some "api_contract"
  else if strContains name "digital_twin" then some "digital_twin"
  else if strContains name "knowledge_graph" then some "knowledge_graph"
  else if strContains name "master_system_model" then some "master_system_model"
  else if strContains name "ai_master_manifest"
        || (strContains name "manifest" && !strContains name "schema") then some "manifest"
  else none

/-- Specification-side classifier: the ordered rule table of section 4.2 of the
spec, taken literally as predicate-tag pairs, returning the tag of the first
rule whose predicate holds on the lower-cased stem. -/
def classifierRuleTable : List ((String → Bool) × String) :=
  [ (fun n => strContains n "api_contract", "api_contract"),
    (fun n => strContains n "digital_twin", "digital_twin"),
    (fun n => strContains n "knowledge_graph", "knowledge_graph"),
    (fun n => strContains n "master_system_model", "master_system_model"),
    (fun n => strContains n "ai_master_manifest"
              || (strContains n "manifest" && !strContains n "schema"), "manifest") ]

/-- First-match evaluation of the spec rule table. -/
def classifySpec (stem : String) : Option String :=
  (classifierRuleTable.find? (fun r => r.1 (strLower stem))).map (fun r => r.2)

end Oyna

namespace Oyna

/-- C1 counterexample: the claim asserts that every name containing both
"manifest" and "schema" but not "ai_master_manifest" classifies as unknown;
the stem "digital_twin_manifest_schema" contains both and not
"ai_master_manifest", yet the code classifies it as digital_twin because the
digital_twin rule fires first. -/
theorem C1_counterexample :
    strContains "digital_twin_manifest_schema" "manifest" = true
    ∧ strContains "digital_twin_manifest_schema" "schema" = true
    ∧ strContains "digital_twin_manifest_schema" "ai_master_manifest" = false
    ∧ detect_model_type "digital_twin_manifest_schema" = some "digital_twin" := by
  refine ⟨by decide, by decide, by decide, by decide⟩

/-- C1 (amended): the classifier returns the tag of the first matching rule of
the fixed ordered rule table (else unknown); and a name matching none of the
first four rules that contains both "manifest" and "schema" classifies as
manifest when it contains "ai_master_manifest" and as unknown otherwise. -/
theorem C1_classifier_first_match :
    (∀ stem : String, detect_model_type stem = classifySpec stem)
    ∧ (∀ stem : String,
        strContains (strLower stem) "api_contract" = false →
        strContains (strLower stem) "digital_twin" = false →
        strContains (strLower stem) "knowledge_graph" = false →
        strContains (strLower stem) "master_system_model" = false →
        strContains (strLower stem) "manifest" = true →
        strContains (strLower stem) "schema" = true →
        detect_model_type stem =
          if strContains (strLower stem) "ai_master_manifest" then some "manifest"
          else none) := by
  constructor
  · intro stem
    simp only [detect_model_type, classifySpec, classifierRuleTable, List.find?]
    rcases h1 : strContains (strLower stem) "api_contract" <;>
      rcases h2 : strContains (strLower stem) "digital_twin" <;>
        rcases h3 : strContains (strLower stem) "knowledge_graph" <;>
          rcases h4 : strContains (strLower stem) "master_system_model" <;>
            rcases h5 : strContains (strLower stem) "ai_master_manifest"
                || (strContains (strLower stem) "manifest"
                    && !strContains (strLower stem) "schema") <;>
              simp_all
  · intro stem h1 h2 h3 h4 h5 h6
    rcases h7 : strContains (strLower stem) "ai_master_manifest" <;>
      simp_all [detect_model_type]

/-- C1 witness: at the concrete stem "manifest_schema" no earlier rule fires,
both "manifest" and "schema" occur, "ai_master_manifest" does not, and the
classifier returns unknown. -/
theorem C1_classifier_first_match_witness :
    detect_model_type "manifest_schema" =
      if strContains (strLower "manifest_schema") "ai_master_manifest"
      then some "manifest" else none := by
  exact C1_classifier_first_match.2 "manifest_schema"
    (by decide) (by decide) (by decide) (by decide) (by decide) (by decide)

end Oyna

namespace Oyna

/-- Parsed JSON document values, as produced by json.load. Numbers are modelled
as integers; the repository's manifest metadata uses only integer numbers. -/
inductive Json where
  | null : Json
  | bool : Bool → Json
  | num : Int → Json
  | str : String → Json
  | arr : List Json → Json
  | obj : List (String × Json) → Json

/-- Python truthiness of a JSON value: None, False, 0, empty string, empty
array and empty object are falsy; everything else is truthy. -/
def truthy : Json → Bool
  | Json.null => false
  | Json.bool b => b
  | Json.num n => n != 0
  | Json.str s => s != ""
  | Json.arr xs => !xs.isEmpty
  | Json.obj kvs => !kvs.isEmpty

/-- Python dict.get on an object document: the value of the first binding of
the key, when the document is an object holding the key. -/
def jget : Json → String → Option Json
  | Json.obj kvs, k => kvs.lookup k
  | _, _ => none

/-- dict.get filtered through Python truthiness: some value when the key is
present with a truthy value, otherwise none. One link of an x or y chain. -/
def jgetT (d : Json) (k : String) : Option Json :=
  match jget d k with
  | some v => if truthy v then some v else none
  | none => none

/-- One manifest entry as assembled by tools/generate_manifest.py. -/
structure Entry where
  id : Json
  name : Json
  description : Json
  sourceFile : String
  endpoints : Option Json
  schema : Option Json

/-- Whether a JSON value is a key-value object, the only top-level shape on
which the Python attribute access data.get succeeds. -/
def is_obj : Json → Bool
  | Json.obj _ => true
  | _ => false

/-- tools/generate_manifest.py extract_model_entry: on a key-value document,
resolve each field through its ordered fallback chain of keys, Python or
semantics, with the file stem as the final id fallback; endpoints kept only
when truthy, schema only when the chain produced a value. The source performs
no dict check: on a loaded document whose top-level value is a list, string,
number, boolean or null, the very first data.get call raises AttributeError,
modelled as the error result. -/
def extract_model_entry (relPath stem : String) (data : Json) : Except String Entry :=
  match data with
  | Json.obj kvs =>
    let d := Json.obj kvs
    let model_id := ((jgetT d "id").orElse (fun _ => jgetT d "model_id")
        |>.orElse (fun _ => jgetT d "name")).getD (Json.str stem)
    Except.ok
      { id := model_id
        name := (jgetT d "name").getD model_id
        description := ((jgetT d "description").orElse
          (fun _ => jgetT d "summary")).getD (Json.str "")
        sourceFile := relPath
        endpoints := (jgetT d "endpoints").orElse (fun _ => jgetT d "tools")
          |>.orElse (fun _ => jgetT d "operations")
        schema := (jgetT d "schema").orElse (fun _ => jgetT d "json_schema")
          |>.orElse (fun _ => jgetT d "openapi_schema") }
  | _ => Except.error "AttributeError"

/-- A candidate model file as seen by the generator: its path relative to the
project root, its stem, and its parse result (none models an unreadable or
malformed file, which load_json reports and maps to None). -/
structure MFile where
  path : String
  stem : String
  content : Option Json

/-- Path order used by the directory scan: comparison of path strings. -/
def mfileLe (a b : MFile) : Prop := a.path ≤ b.path

instance : DecidableRel mfileLe := fun a b =>
  inferInstanceAs (Decidable (a.path ≤ b.path))

instance : IsTotal MFile mfileLe := ⟨fun a b => le_total a.path b.path⟩

instance : IsTrans MFile mfileLe := ⟨fun _ _ _ h1 h2 => le_trans h1 h2⟩

/-- tools/generate_manifest.py find_model_files: the recursive *.json scan
returns the discovered files sorted by path. The stable sort models Python
sorted(). -/
def find_model_files (files : List MFile) : List MFile :=
  files.insertionSort mfileLe

/-- The manifest record assembled by build_manifest. -/
structure Manifest where
  version : Nat
  generatedAt : String
  modelCount : Nat
  models : List Entry

/-- The entry-collection loop of build_manifest: load each file in order, skip
the ones whose load failed, extract an entry per loaded document; an
AttributeError raised by the extractor propagates and aborts the whole
build. -/
def build_entries : List MFile → Except String (List Entry)
  | [] => Except.ok []
  | f :: fs =>
    match f.content with
    | none => build_entries fs
    | some d =>
      match extract_model_entry f.path f.stem d with
      | Except.ok e => (build_entries fs).map (fun es => e :: es)
      | Except.error msg => Except.error msg

/-- tools/generate_manifest.py build_manifest: scan, collect the entries in
scan order, and stamp the entry count; the timestamp is an input
(datetime.now). An uncaught exception from the loop propagates. -/
def build_manifest (genAt : String) (files : List MFile) : Except String Manifest :=
  (build_entries (find_model_files files)).map (fun models =>
    { version := 1
      generatedAt := genAt
      modelCount := models.length
      models := models })

end Oyna

namespace Oyna

theorem except_map_ok :
    ∀ {α β : Type} (g : α → β) (x : Except String α) (y : β),
      x.map g = Except.ok y → ∃ a, x = Except.ok a ∧ y = g a := by
  intro α β g x y h
  cases x with
  | ok a =>
    refine ⟨a, rfl, ?_⟩
    simp [Except.map] at h
    exact h.symm
  | error e => simp [Except.map] at h

/-- C4: on every key-value document (the ModelDocument domain of the spec, on
which data.get is defined) the extractor succeeds and the resolved id of the
entry is the first truthy (non-empty) value among the keys id, model_id,
name, and otherwise the file stem; in particular a document with no truthy
value under any of the three keys resolves its id to the file base name
without extension. -/
theorem C4_id_fallback_chain :
    ∀ (relPath stem : String) (kvs : List (String × Json)),
      ∃ e, extract_model_entry relPath stem (Json.obj kvs) = Except.ok e
      ∧ (∀ v, jgetT (Json.obj kvs) "id" = some v → e.id = v)
      ∧ (jgetT (Json.obj kvs) "id" = none →
          ∀ v, jgetT (Json.obj kvs) "model_id" = some v → e.id = v)
      ∧ (jgetT (Json.obj kvs) "id" = none → jgetT (Json.obj kvs) "model_id" = none →
          ∀ v, jgetT (Json.obj kvs) "name" = some v → e.id = v)
      ∧ (jgetT (Json.obj kvs) "id" = none → jgetT (Json.obj kvs) "model_id" = none →
          jgetT (Json.obj kvs) "name" = none → e.id = Json.str stem) := by
  intro relPath stem kvs
  refine ⟨_, rfl, ?_, ?_, ?_, ?_⟩
  · intro v h
    simp [extract_model_entry, h, Option.orElse]
  · intro h1 v h
    simp [extract_model_entry, h1, h, Option.orElse]
  · intro h1 h2 v h
    simp [extract_model_entry, h1, h2, h, Option.orElse]
  · intro h1 h2 h3
    simp [extract_model_entry, h1, h2, h3, Option.orElse]

/-- C4 witness: a document carrying none of the id keys (only a description)
is extracted successfully and resolves its id to the stem "pump_station". -/
theorem C4_id_fallback_chain_witness :
    ∃ e, extract_model_entry "models/v1/pump_station.json" "pump_station"
        (Json.obj [("description", Json.str "a pump")]) = Except.ok e
      ∧ e.id = Json.str "pump_station" := by
  obtain ⟨e, he, hc⟩ := C4_id_fallback_chain "models/v1/pump_station.json"
    "pump_station" [("description", Json.str "a pump")]
  exact ⟨e, he, hc.2.2.2 rfl rfl rfl⟩

/-- The per-file entry outcome of the build loop: no entry for a file whose
load failed, the extracted entry for a loaded document (when extraction does
not raise). -/
def gEntry (f : MFile) : Option Entry :=
  match f.content with
  | none => none
  | some d => (extract_model_entry f.path f.stem d).toOption

theorem gEntry_sourceFile :
    ∀ (f : MFile) (e : Entry), gEntry f = some e → e.sourceFile = f.path := by
  intro f e h
  simp only [gEntry] at h
  match hc : f.content with
  | none => rw [hc] at h; cases h
  | some d =>
    rw [hc] at h
    match d with
    | Json.null => cases h
    | Json.bool _ => cases h
    | Json.num _ => cases h
    | Json.str _ => cases h
    | Json.arr _ => cases h
    | Json.obj kvs =>
      simp only [extract_model_entry, Except.toOption, Option.some.injEq] at h
      rw [← h]

theorem build_entries_ok_eq :
    ∀ (fs : List MFile) (es : List Entry),
      build_entries fs = Except.ok es → es = fs.filterMap gEntry := by
  intro fs
  induction fs with
  | nil =>
    intro es h
    simp only [build_entries, Except.ok.injEq] at h
    simp [h.symm]
  | cons f fs ih =>
    intro es h
    match hc : f.content with
    | none =>
      rw [show build_entries (f :: fs) = build_entries fs by
        simp [build_entries, hc]] at h
      simp [List.filterMap_cons, gEntry, hc, ih es h]
    | some d =>
      match hx : extract_model_entry f.path f.stem d with
      | Except.error msg =>
        rw [show build_entries (f :: fs) = Except.error msg by
          simp [build_entries, hc, hx]] at h
        cases h
      | Except.ok e =>
        rw [show build_entries (f :: fs) = (build_entries fs).map (fun es => e :: es) by
          simp [build_entries, hc, hx]] at h
        obtain ⟨es2, h1, h2⟩ := except_map_ok _ _ _ h
        simp [List.filterMap_cons, gEntry, hc, hx, Except.toOption, h2, ih es2 h1]

/-- C5: whenever the builder completes and yields a manifest, the model_count
field equals the length of the models sequence, and the entries carry source
file paths in the sorted (lexicographic) scan order. -/
theorem C5_count_and_scan_order :
    ∀ (genAt : String) (files : List MFile) (m : Manifest),
      build_manifest genAt files = Except.ok m →
      m.modelCount = m.models.length
      ∧ List.Sorted (fun a b : String => a ≤ b)
          (m.models.map Entry.sourceFile) := by
  intro genAt files m h
  obtain ⟨models, h1, h2⟩ := except_map_ok _ _ _ h
  subst h2
  refine ⟨rfl, ?_⟩
  rw [build_entries_ok_eq _ _ h1]
  have hsorted : List.Sorted mfileLe (find_model_files files) :=
    List.sorted_insertionSort mfileLe files
  simp only [List.Sorted, List.pairwise_map, List.pairwise_filterMap]
  refine hsorted.imp_of_mem ?_
  intro a b _ _ hle e he e2 he2
  rw [gEntry_sourceFile a e he, gEntry_sourceFile b e2 he2]
  exact hle

/-- C5 witness: a one-file build completes and satisfies both invariants. -/
theorem C5_count_and_scan_order_witness :
    ∃ m, build_manifest "2025-01-01T00:00:00+00:00"
        [{ path := "models/v1/pump_api_contract.json", stem := "pump_api_contract",
           content := some (Json.obj []) }] = Except.ok m
      ∧ m.modelCount = m.models.length
      ∧ List.Sorted (fun a b : String => a ≤ b)
          (m.models.map Entry.sourceFile) := by
  refine ⟨_, rfl, C5_count_and_scan_order "2025-01-01T00:00:00+00:00"
    [{ path := "models/v1/pump_api_contract.json", stem := "pump_api_contract",
       content := some (Json.obj []) }] _ rfl⟩

end Oyna

namespace Oyna

/-- One schema violation as yielded by the validator library iter_errors: the
path of structural keys from the document root and a message. -/
structure VError where
  path : List String
  msg : String

/-- Strict lexicographic comparison of character lists by code point, the
order Python uses between strings. -/
def charListLt : List Char → List Char → Bool
  | [], [] => false
  | [], _ :: _ => true
  | _ :: _, [] => false
  | a :: as, b :: bs => if a < b then true else if a = b then charListLt as bs else false

theorem charListLt_iff :
    ∀ as bs : List Char, charListLt as bs = true ↔ List.Lex (· < ·) as bs := by
  intro as
  induction as with
  | nil =>
    intro bs
    match bs with
    | [] =>
      constructor
      · intro h; exact absurd h (by simp [charListLt])
      · intro h; cases h
    | b :: bs =>
      constructor
      · intro _; exact List.Lex.nil
      · intro _; rfl
  | cons a as ih =>
    intro bs
    match bs with
    | [] =>
      constructor
      · intro h; exact absurd h (by simp [charListLt])
      · intro h; cases h
    | b :: bs =>
      simp only [charListLt]
      by_cases h1 : a < b
      · rw [if_pos h1]
        simp only [true_iff]
        exact List.Lex.rel h1
      · by_cases h2 : a = b
        · subst h2
          rw [if_neg h1, if_pos rfl, ih bs]
          constructor
          · intro h; exact List.Lex.cons h
          · intro h
            cases h with
            | cons h => exact h
            | rel h => exact absurd h h1
        · rw [if_neg h1, if_neg h2]
          constructor
          · intro h; exact absurd h (by simp)
          · intro h
            cases h with
            | cons h => exact absurd rfl h2
            | rel h => exact absurd h h1

/-- String comparison by character data, equal to the library order. -/
def strLt (a b : String) : Bool := charListLt a.toList b.toList

theorem strLt_iff : ∀ a b : String, strLt a b = true ↔ a < b := by
  intro a b
  rw [strLt, charListLt_iff]
  constructor
  · intro h; exact String.lt_iff_toList_lt.mpr h
  · intro h; exact String.lt_iff_toList_lt.mp h

/-- Python list/deque comparison on key paths: elementwise by string order,
a strict prefix ranking below its extensions. This is the sort key order used
by validate_model, which sorts on e.path. -/
def pathLe : List String → List String → Bool
  | [], _ => true
  | _ :: _, [] => false
  | x :: xs, y :: ys =>
    if strLt x y then true else if x = y then pathLe xs ys else false

theorem pathLe_cons :
    ∀ (x y : String) (xs ys : List String),
      pathLe (x :: xs) (y :: ys) = true ↔ x < y ∨ (x = y ∧ pathLe xs ys = true) := by
  intro x y xs ys
  simp only [pathLe]
  by_cases h1 : strLt x y = true
  · rw [if_pos h1]
    simp [(strLt_iff x y).1 h1]
  · rw [if_neg h1]
    have h1p : ¬ x < y := fun hc => h1 ((strLt_iff x y).2 hc)
    by_cases h2 : x = y
    · rw [if_pos h2]
      simp [h1p, h2]
    · rw [if_neg h2]
      simp [h1p, h2]

theorem pathLe_total : ∀ p q : List String, pathLe p q = true ∨ pathLe q p = true := by
  intro p
  induction p with
  | nil => intro q; left; rfl
  | cons x xs ih =>
    intro q
    match q with
    | [] => right; rfl
    | y :: ys =>
      rcases lt_trichotomy x y with h | h | h
      · left; exact (pathLe_cons x y xs ys).2 (Or.inl h)
      · subst h
        rcases ih ys with h2 | h2
        · left; exact (pathLe_cons x x xs ys).2 (Or.inr ⟨rfl, h2⟩)
        · right; exact (pathLe_cons x x ys xs).2 (Or.inr ⟨rfl, h2⟩)
      · right; exact (pathLe_cons y x ys xs).2 (Or.inl h)

theorem pathLe_trans :
    ∀ p q r : List String, pathLe p q = true → pathLe q r = true → pathLe p r = true := by
  intro p
  induction p with
  | nil => intro q r _ _; rfl
  | cons x xs ih =>
    intro q r hpq hqr
    match q, r with
    | [], _ => exact absurd hpq (by simp [pathLe])
    | _ :: _, [] => exact absurd hqr (by simp [pathLe])
    | y :: ys, z :: zs =>
      rcases (pathLe_cons x y xs ys).1 hpq with h1 | ⟨h1, h1r⟩ <;>
        rcases (pathLe_cons y z ys zs).1 hqr with h2 | ⟨h2, h2r⟩
      · exact (pathLe_cons x z xs zs).2 (Or.inl (lt_trans h1 h2))
      · exact (pathLe_cons x z xs zs).2 (Or.inl (h2 ▸ h1))
      · exact (pathLe_cons x z xs zs).2 (Or.inl (h1 ▸ h2))
      · exact (pathLe_cons x z xs zs).2 (Or.inr ⟨h1.trans h2, ih ys zs h1r h2r⟩)

/-- Sort key order on violations: by the structural key path. -/
def errLe (a b : VError) : Prop := pathLe a.path b.path = true

instance : DecidableRel errLe := fun a b =>
  inferInstanceAs (Decidable (pathLe a.path b.path = true))

instance : IsTotal VError errLe := ⟨fun a b => pathLe_total a.path b.path⟩

instance : IsTrans VError errLe := ⟨fun _ _ _ => pathLe_trans _ _ _⟩

/-- The reported location of a violation: slash-joined structural keys, with a
sentinel for the document root. -/
def renderLoc (p : List String) : String :=
  if p.isEmpty then "<root>" else String.intercalate "/" p

/-- One reported violation line: location, colon, message. -/
def renderErr (e : VError) : String := renderLoc e.path ++ ": " ++ e.msg

/-- The schema index built by build_schema_index: compiled validators keyed by
model type tag; a compiled validator is abstracted as the list of violations
the library yields on a document, in iteration order. -/
def SchemaIndex : Type := List (String × (Json → List VError))

/-- tools/validate_models.py validate_model: when no schema is loaded for the
type, a single synthetic message; otherwise the violations sorted by their key
path (sorted with key e.path, a stable sort modelled by insertion sort) and
rendered as location-message lines. -/
def validate_model (data : Json) (model_type : String) (validators : SchemaIndex) :
    List String :=
  match List.lookup model_type validators with
  | none => ["No schema loaded for model_type=\x27" ++ model_type ++ "\x27"]
  | some v => ((v data).insertionSort errLe).map renderErr

/-- Running totals of a validation run, plus the stems of the files whose
content the loop actually opened for loading. -/
structure VState where
  ok : Nat
  failed : Nat
  opened : List String

/-- A candidate model file seen by the validator: stem and parse outcome
(none models a file whose load_json fails with an I/O or parse error). -/
structure VFile where
  stem : String
  content : Option Json

/-- The body of the run_validation loop for one discovered file: an
unclassifiable file is skipped before any load; otherwise the file is opened,
a failed load counts as failed, and a loaded document counts by whether
validate_model reports any message. -/
def vstep (validators : SchemaIndex) (st : VState) (f : VFile) : VState :=
  match detect_model_type f.stem with
  | none => st
  | some t =>
    match f.content with
    | none =>
      { ok := st.ok, failed := st.failed + 1, opened := st.opened ++ [f.stem] }
    | some d =>
      if (validate_model d t validators).isEmpty then
        { ok := st.ok + 1, failed := st.failed, opened := st.opened ++ [f.stem] }
      else
        { ok := st.ok, failed := st.failed + 1, opened := st.opened ++ [f.stem] }

/-- tools/validate_models.py run_validation: fold the loop body over the
discovered files, starting from zero counts. -/
def run_validation (validators : SchemaIndex) (files : List VFile) : VState :=
  files.foldl (vstep validators) { ok := 0, failed := 0, opened := [] }

/-- tools/validate_models.py main: exit code 1 when any document failed,
else 0. -/
def validate_main (validators : SchemaIndex) (files : List VFile) : Nat :=
  if (run_validation validators files).failed > 0 then 1 else 0

theorem vstep_shift (validators : SchemaIndex) (st : VState) (f : VFile) :
    vstep validators st f =
      { ok := st.ok + (vstep validators { ok := 0, failed := 0, opened := [] } f).ok,
        failed := st.failed
          + (vstep validators { ok := 0, failed := 0, opened := [] } f).failed,
        opened := st.opened
          ++ (vstep validators { ok := 0, failed := 0, opened := [] } f).opened } := by
  simp only [vstep]
  match detect_model_type f.stem with
  | none => simp
  | some t =>
    match f.content with
    | none => simp
    | some d =>
      by_cases h : (validate_model d t validators).isEmpty = true <;> simp [h]

theorem foldl_vstep_shift (validators : SchemaIndex) :
    ∀ (files : List VFile) (st : VState),
      files.foldl (vstep validators) st =
        { ok := st.ok + (run_validation validators files).ok,
          failed := st.failed + (run_validation validators files).failed,
          opened := st.opened ++ (run_validation validators files).opened } := by
  intro files
  induction files with
  | nil => intro st; simp [run_validation]
  | cons f rest ih =>
    intro st
    have hz : run_validation validators (f :: rest)
        = rest.foldl (vstep validators)
            (vstep validators { ok := 0, failed := 0, opened := [] } f) := rfl
    rw [hz, ih (vstep validators { ok := 0, failed := 0, opened := [] } f)]
    simp only [List.foldl_cons]
    rw [ih (vstep validators st f), vstep_shift validators st f]
    simp [Nat.add_assoc, List.append_assoc]

end Oyna

namespace Oyna

/-- C2 counterexample: a classified file whose load fails is counted as a
failure and forces exit code 1, contrary to the claim that it leaves the
totals unchanged and cannot by itself produce a non-zero exit code. -/
theorem C2_counterexample :
    detect_model_type "ai_master_manifest" = some "manifest"
    ∧ run_validation ([] : SchemaIndex)
        [{ stem := "ai_master_manifest", content := none }]
      = { ok := 0, failed := 1, opened := ["ai_master_manifest"] }
    ∧ validate_main ([] : SchemaIndex)
        [{ stem := "ai_master_manifest", content := none }] = 1 := by
  refine ⟨by decide, rfl, rfl⟩

/-- C2 (amended): a load failure on a classified file is per-file, never
batch-fatal: the run continues and accumulates the outcome of every remaining
file unchanged, but the unloadable file itself is counted as one additional
failing document and therefore forces a non-zero exit code. -/
theorem C2_load_failure_counts :
    ∀ (validators : SchemaIndex) (stem t : String) (rest : List VFile),
      detect_model_type stem = some t →
      run_validation validators ({ stem := stem, content := none } :: rest)
        = { ok := (run_validation validators rest).ok,
            failed := 1 + (run_validation validators rest).failed,
            opened := stem :: (run_validation validators rest).opened }
      ∧ validate_main validators ({ stem := stem, content := none } :: rest) = 1 := by
  intro validators stem t rest h
  have hstep : vstep validators { ok := 0, failed := 0, opened := [] }
      { stem := stem, content := none }
      = { ok := 0, failed := 1, opened := [stem] } := by
    simp [vstep, h]
  have hrun : run_validation validators ({ stem := stem, content := none } :: rest)
      = { ok := (run_validation validators rest).ok,
          failed := 1 + (run_validation validators rest).failed,
          opened := stem :: (run_validation validators rest).opened } := by
    show List.foldl (vstep validators) (vstep validators
        { ok := 0, failed := 0, opened := [] }
        { stem := stem, content := none }) rest = _
    rw [hstep, foldl_vstep_shift]
    simp
  refine ⟨hrun, ?_⟩
  simp [validate_main, hrun]

/-- C2 witness: a single classified unloadable file yields one failure and
exit code 1. -/
theorem C2_load_failure_counts_witness :
    run_validation ([] : SchemaIndex)
        [{ stem := "tank_digital_twin", content := none }]
      = { ok := (run_validation ([] : SchemaIndex) []).ok,
          failed := 1 + (run_validation ([] : SchemaIndex) []).failed,
          opened := "tank_digital_twin"
            :: (run_validation ([] : SchemaIndex) []).opened }
    ∧ validate_main ([] : SchemaIndex)
        [{ stem := "tank_digital_twin", content := none }] = 1 :=
  C2_load_failure_counts [] "tank_digital_twin" "digital_twin" [] (by decide)

/-- C3: a document classified to a type with no compiled schema in the index
is reported through exactly one synthetic message naming the missing schema
type, is counted as a failing document (not skipped), and forces exit 1. -/
theorem C3_missing_schema_hard_failure :
    ∀ (validators : SchemaIndex) (stem t : String) (d : Json) (rest : List VFile),
      detect_model_type stem = some t →
      List.lookup t validators = none →
      validate_model d t validators
          = ["No schema loaded for model_type=\x27" ++ t ++ "\x27"]
      ∧ run_validation validators ({ stem := stem, content := some d } :: rest)
          = { ok := (run_validation validators rest).ok,
              failed := 1 + (run_validation validators rest).failed,
              opened := stem :: (run_validation validators rest).opened }
      ∧ validate_main validators ({ stem := stem, content := some d } :: rest) = 1 := by
  intro validators stem t d rest hdet hlook
  have hvm : validate_model d t validators
      = ["No schema loaded for model_type=\x27" ++ t ++ "\x27"] := by
    simp [validate_model, hlook]
  have hstep : vstep validators { ok := 0, failed := 0, opened := [] }
      { stem := stem, content := some d }
      = { ok := 0, failed := 1, opened := [stem] } := by
    simp [vstep, hdet, hvm]
  have hrun : run_validation validators ({ stem := stem, content := some d } :: rest)
      = { ok := (run_validation validators rest).ok,
          failed := 1 + (run_validation validators rest).failed,
          opened := stem :: (run_validation validators rest).opened } := by
    show List.foldl (vstep validators) (vstep validators
        { ok := 0, failed := 0, opened := [] }
        { stem := stem, content := some d }) rest = _
    rw [hstep, foldl_vstep_shift]
    simp
  refine ⟨hvm, hrun, ?_⟩
  simp [validate_main, hrun]

/-- C3 witness: a knowledge_graph document with an empty index is reported via
the single synthetic message, counted as failing, with exit code 1. -/
theorem C3_missing_schema_hard_failure_witness :
    validate_model (Json.obj []) "knowledge_graph" ([] : SchemaIndex)
        = ["No schema loaded for model_type=\x27knowledge_graph\x27"]
    ∧ run_validation ([] : SchemaIndex)
        [{ stem := "tank_knowledge_graph", content := some (Json.obj []) }]
        = { ok := (run_validation ([] : SchemaIndex) []).ok,
            failed := 1 + (run_validation ([] : SchemaIndex) []).failed,
            opened := "tank_knowledge_graph"
              :: (run_validation ([] : SchemaIndex) []).opened }
    ∧ validate_main ([] : SchemaIndex)
        [{ stem := "tank_knowledge_graph", content := some (Json.obj []) }] = 1 :=
  C3_missing_schema_hard_failure [] "tank_knowledge_graph" "knowledge_graph"
    (Json.obj []) [] (by decide) rfl

/-- C6: the validator exit code is 0 exactly when the aggregate count of
failing documents is 0, and any non-zero failing count yields exit code 1. -/
theorem C6_exit_iff_no_failures :
    ∀ (validators : SchemaIndex) (files : List VFile),
      (validate_main validators files = 0
        ↔ (run_validation validators files).failed = 0)
      ∧ ((run_validation validators files).failed ≠ 0 →
          validate_main validators files = 1) := by
  intro validators files
  constructor
  · constructor
    · intro h
      by_contra hne
      have : validate_main validators files = 1 := by
        simp [validate_main, Nat.pos_of_ne_zero hne]
      omega
    · intro h
      simp [validate_main, h]
  · intro h
    simp [validate_main, Nat.pos_of_ne_zero h]

/-- C6 witness: one failing document makes the failing count 1 and the exit
code 1. -/
theorem C6_exit_iff_no_failures_witness :
    validate_main ([] : SchemaIndex)
      [{ stem := "ai_master_manifest", content := some (Json.obj []) }] = 1 :=
  (C6_exit_iff_no_failures ([] : SchemaIndex)
      [{ stem := "ai_master_manifest", content := some (Json.obj []) }]).2
    (by decide)

/-- C10: a discovered file whose stem matches no classification rule is
skipped before any load: the run state, including the trace of files opened
for loading, is exactly the state of the run without that file, whatever its
content (even an unreadable one, content none), so it cannot affect counts or
exit code. -/
theorem C10_unclassified_skipped_before_load :
    ∀ (validators : SchemaIndex) (stem : String) (content : Option Json)
      (rest : List VFile),
      detect_model_type stem = none →
      run_validation validators ({ stem := stem, content := content } :: rest)
          = run_validation validators rest
      ∧ validate_main validators ({ stem := stem, content := content } :: rest)
          = validate_main validators rest := by
  intro validators stem content rest h
  have hrun : run_validation validators ({ stem := stem, content := content } :: rest)
      = run_validation validators rest := by
    show List.foldl (vstep validators) (vstep validators
        { ok := 0, failed := 0, opened := [] }
        { stem := stem, content := content }) rest = _
    simp [vstep, h, run_validation]
  exact ⟨hrun, by simp [validate_main, hrun]⟩

/-- C10 witness: an unreadable file named random_notes changes nothing. -/
theorem C10_unclassified_skipped_before_load_witness :
    run_validation ([] : SchemaIndex) [{ stem := "random_notes", content := none }]
        = run_validation ([] : SchemaIndex) []
    ∧ validate_main ([] : SchemaIndex) [{ stem := "random_notes", content := none }]
        = validate_main ([] : SchemaIndex) [] :=
  C10_unclassified_skipped_before_load [] "random_notes" none [] (by decide)

/-- A concrete abstract validator used to exercise validate_model: it yields a
violation under the keys a, b and one under the single key a-bang. -/
def cexValidator : Json → List VError :=
  fun _ => [{ path := ["a", "b"], msg := "m1" }, { path := ["a!"], msg := "m2" }]

/-- A schema index holding only the concrete validator, under the manifest
tag. -/
def cexIndex : SchemaIndex := [("manifest", cexValidator)]

/-- C8 counterexample: validate_model sorts by the key-path sequence, not by
the joined location string: the violation at location a/b is reported before
the one at location a-bang, yet a-bang is strictly smaller as a string, so the
reported sequence is not sorted by location. -/
theorem C8_counterexample :
    validate_model (Json.obj []) "manifest" cexIndex = ["a/b: m1", "a!: m2"]
    ∧ ("a!" : String) < "a/b" := by
  refine ⟨by decide, (strLt_iff "a!" "a/b").1 (by decide)⟩

/-- C8 (amended): for a document checked against a compiled schema, the
reported lines are the violations of the schema validator, reordered into a
sequence sorted by the structural key path (elementwise string order, root
first) and rendered as slash-joined location, colon, message — an order that
can differ from sorting by the rendered location string. -/
theorem C8_sorted_by_key_path :
    ∀ (d : Json) (t : String) (validators : SchemaIndex) (v : Json → List VError),
      List.lookup t validators = some v →
      ∃ es : List VError, es.Perm (v d) ∧ List.Sorted errLe es
        ∧ validate_model d t validators = es.map renderErr := by
  intro d t validators v h
  refine ⟨(v d).insertionSort errLe, List.perm_insertionSort errLe (v d),
    List.sorted_insertionSort errLe (v d), ?_⟩
  simp [validate_model, h]

/-- C8 witness: the concrete index yields a sorted-by-path permutation of the
two violations of the concrete validator. -/
theorem C8_sorted_by_key_path_witness :
    ∃ es : List VError, es.Perm (cexValidator (Json.obj []))
      ∧ List.Sorted errLe es
      ∧ validate_model (Json.obj []) "manifest" cexIndex = es.map renderErr :=
  C8_sorted_by_key_path (Json.obj []) "manifest" cexIndex cexValidator rfl

end Oyna

namespace Oyna

/-- JSON output tokens: structural punctuation, literals, and whitespace runs.
Serialization is modelled at the token level; lexing of the character stream
(string escaping included) is the standard invertible JSON lexer. -/
inductive JTok where
  | lbrace : JTok
  | rbrace : JTok
  | lbrack : JTok
  | rbrack : JTok
  | colon : JTok
  | comma : JTok
  | tnull : JTok
  | tbool : Bool → JTok
  | tnum : Int → JTok
  | tstr : String → JTok
  | ws : String → JTok
deriving DecidableEq

mutual
/-- json.dump with separators comma and colon (the compact form of
generate_manifest.py main): the token stream of a value, with no whitespace. -/
def serCore : Json → List JTok
  | Json.null => [JTok.tnull]
  | Json.bool b => [JTok.tbool b]
  | Json.num n => [JTok.tnum n]
  | Json.str s => [JTok.tstr s]
  | Json.arr [] => [JTok.lbrack, JTok.rbrack]
  | Json.arr (x :: xs) => JTok.lbrack :: (serCore x ++ serItems xs ++ [JTok.rbrack])
  | Json.obj [] => [JTok.lbrace, JTok.rbrace]
  | Json.obj ((k, v) :: kvs) =>
      JTok.lbrace :: JTok.tstr k :: JTok.colon :: (serCore v ++ serFields kvs ++ [JTok.rbrace])

/-- Second and later array items of the compact form, each after a comma. -/
def serItems : List Json → List JTok
  | [] => []
  | x :: xs => JTok.comma :: (serCore x ++ serItems xs)

/-- Second and later object members of the compact form. -/
def serFields : List (String × Json) → List JTok
  | [] => []
  | (k, v) :: kvs => JTok.comma :: JTok.tstr k :: JTok.colon :: (serCore v ++ serFields kvs)
end

/-- The newline-plus-indentation whitespace token of the pretty form at a
nesting level, two spaces per level (indent=2). -/
def nlind (lvl : Nat) : JTok := JTok.ws ("\n".pushn (Char.ofNat 32) (2 * lvl))

mutual
/-- json.dump with indent=2 (the pretty form of generate_manifest.py main):
the same token stream with whitespace tokens interleaved — newline and
indentation inside non-empty containers, a space after each member colon. -/
def serP : Json → Nat → List JTok
  | Json.null, _ => [JTok.tnull]
  | Json.bool b, _ => [JTok.tbool b]
  | Json.num n, _ => [JTok.tnum n]
  | Json.str s, _ => [JTok.tstr s]
  | Json.arr [], _ => [JTok.lbrack, JTok.rbrack]
  | Json.arr (x :: xs), lvl =>
      JTok.lbrack :: nlind (lvl + 1) ::
        (serP x (lvl + 1) ++ serPItems xs (lvl + 1) ++ [nlind lvl, JTok.rbrack])
  | Json.obj [], _ => [JTok.lbrace, JTok.rbrace]
  | Json.obj ((k, v) :: kvs), lvl =>
      JTok.lbrace :: nlind (lvl + 1) :: JTok.tstr k :: JTok.colon :: JTok.ws " " ::
        (serP v (lvl + 1) ++ serPFields kvs (lvl + 1) ++ [nlind lvl, JTok.rbrace])

/-- Second and later array items of the pretty form. -/
def serPItems : List Json → Nat → List JTok
  | [], _ => []
  | x :: xs, lvl => JTok.comma :: nlind lvl :: (serP x lvl ++ serPItems xs lvl)

/-- Second and later object members of the pretty form. -/
def serPFields : List (String × Json) → Nat → List JTok
  | [], _ => []
  | (k, v) :: kvs, lvl =>
      JTok.comma :: nlind lvl :: JTok.tstr k :: JTok.colon :: JTok.ws " " ::
        (serP v lvl ++ serPFields kvs lvl)
end

/-- Drop whitespace tokens, as a JSON parser does between tokens. -/
def stripWs : List JTok → List JTok
  | [] => []
  | JTok.ws _ :: ts => stripWs ts
  | t :: ts => t :: stripWs ts

mutual
/-- Fueled recursive-descent JSON value parser over whitespace-free tokens:
returns the parsed value and the remaining tokens. -/
def parseV : Nat → List JTok → Option (Json × List JTok)
  | 0, _ => none
  | _ + 1, [] => none
  | f + 1, t :: ts =>
    match t with
    | JTok.tnull => some (Json.null, ts)
    | JTok.tbool b => some (Json.bool b, ts)
    | JTok.tnum n => some (Json.num n, ts)
    | JTok.tstr s => some (Json.str s, ts)
    | JTok.lbrack =>
      match ts with
      | JTok.rbrack :: ts2 => some (Json.arr [], ts2)
      | _ =>
        match parseV f ts with
        | some (x, ts2) =>
          match parseItems f ts2 with
          | some (xs, ts3) => some (Json.arr (x :: xs), ts3)
          | none => none
        | none => none
    | JTok.lbrace =>
      match ts with
      | JTok.rbrace :: ts2 => some (Json.obj [], ts2)
      | JTok.tstr k :: JTok.colon :: ts2 =>
        match parseV f ts2 with
        | some (v, ts3) =>
          match parseFields f ts3 with
          | some (kvs, ts4) => some (Json.obj ((k, v) :: kvs), ts4)
          | none => none
        | none => none
      | _ => none
    | _ => none

/-- Array continuation: a closing bracket ends the items, a comma precedes
each further item. -/
def parseItems : Nat → List JTok → Option (List Json × List JTok)
  | 0, _ => none
  | _ + 1, JTok.rbrack :: ts => some ([], ts)
  | f + 1, JTok.comma :: ts =>
    match parseV f ts with
    | some (x, ts2) =>
      match parseItems f ts2 with
      | some (xs, ts3) => some (x :: xs, ts3)
      | none => none
    | none => none
  | _ + 1, _ => none

/-- Object continuation: a closing brace ends the members, a comma, key and
colon precede each further member. -/
def parseFields : Nat → List JTok → Option (List (String × Json) × List JTok)
  | 0, _ => none
  | _ + 1, JTok.rbrace :: ts => some ([], ts)
  | f + 1, JTok.comma :: JTok.tstr k :: JTok.colon :: ts =>
    match parseV f ts with
    | some (v, ts2) =>
      match parseFields f ts2 with
      | some (kvs, ts3) => some ((k, v) :: kvs, ts3)
      | none => none
    | none => none
  | _ + 1, _ => none
end

/-- Parse a serialized document: strip whitespace, parse one value with ample
fuel, and demand that every token is consumed. -/
def parseTokens (toks : List JTok) : Option Json :=
  match parseV ((stripWs toks).length + 1) (stripWs toks) with
  | some (j, []) => some j
  | _ => none

/-- The JSON document of one manifest entry, keys in assembly order, the two
optional members present only when the extractor kept them. -/
def entryJson (e : Entry) : Json :=
  Json.obj ([("id", e.id), ("name", e.name), ("description", e.description),
      ("source_file", Json.str e.sourceFile)]
    ++ (match e.endpoints with | some v => [("endpoints", v)] | none => [])
    ++ (match e.schema with | some v => [("schema", v)] | none => []))

/-- The JSON document of a built manifest, keys in assembly order. -/
def manifestJson (m : Manifest) : Json :=
  Json.obj [("version", Json.num (m.version : Int)),
    ("generated_at", Json.str m.generatedAt),
    ("model_count", Json.num (m.modelCount : Int)),
    ("models", Json.arr (m.models.map entryJson))]

/-- tools/generate_manifest.py main: build the manifest, serialize it pretty
or compactly per the toggle, and return 0. An AttributeError raised inside
build_manifest propagates uncaught through main, so the interpreter exits
with status 1 and no serialized output is produced. -/
def generate_manifest_main (genAt : String) (files : List MFile) (pretty : Bool) :
    Option (List JTok) × Nat :=
  match build_manifest genAt files with
  | Except.ok m =>
    (some (if pretty then serP (manifestJson m) 0 else serCore (manifestJson m)), 0)
  | Except.error _ => (none, 1)

end Oyna

namespace Oyna

theorem stripWs_append :
    ∀ l1 l2 : List JTok, stripWs (l1 ++ l2) = stripWs l1 ++ stripWs l2 := by
  intro l1 l2
  induction l1 with
  | nil => rfl
  | cons t ts ih => cases t <;> simp [stripWs, ih]

mutual
theorem stripWs_serCore : (j : Json) → stripWs (serCore j) = serCore j
  | Json.null => rfl
  | Json.bool _ => rfl
  | Json.num _ => rfl
  | Json.str _ => rfl
  | Json.arr [] => rfl
  | Json.arr (x :: xs) => by
    simp [serCore, stripWs, stripWs_append, stripWs_serCore x, stripWs_serItems xs]
  | Json.obj [] => rfl
  | Json.obj ((k, v) :: kvs) => by
    simp [serCore, stripWs, stripWs_append, stripWs_serCore v, stripWs_serFields kvs]

theorem stripWs_serItems : (xs : List Json) → stripWs (serItems xs) = serItems xs
  | [] => rfl
  | x :: xs => by
    simp [serItems, stripWs, stripWs_append, stripWs_serCore x, stripWs_serItems xs]

theorem stripWs_serFields :
    (kvs : List (String × Json)) → stripWs (serFields kvs) = serFields kvs
  | [] => rfl
  | (k, v) :: kvs => by
    simp [serFields, stripWs, stripWs_append, stripWs_serCore v, stripWs_serFields kvs]
end

mutual
theorem stripWs_serP : (j : Json) → (lvl : Nat) → stripWs (serP j lvl) = serCore j
  | Json.null, _ => rfl
  | Json.bool _, _ => rfl
  | Json.num _, _ => rfl
  | Json.str _, _ => rfl
  | Json.arr [], _ => rfl
  | Json.arr (x :: xs), lvl => by
    simp [serP, serCore, nlind, stripWs, stripWs_append,
      stripWs_serP x (lvl + 1), stripWs_serPItems xs (lvl + 1)]
  | Json.obj [], _ => rfl
  | Json.obj ((k, v) :: kvs), lvl => by
    simp [serP, serCore, nlind, stripWs, stripWs_append,
      stripWs_serP v (lvl + 1), stripWs_serPFields kvs (lvl + 1)]

theorem stripWs_serPItems :
    (xs : List Json) → (lvl : Nat) → stripWs (serPItems xs lvl) = serItems xs
  | [], _ => rfl
  | x :: xs, lvl => by
    simp [serPItems, serItems, nlind, stripWs, stripWs_append,
      stripWs_serP x lvl, stripWs_serPItems xs lvl]

theorem stripWs_serPFields :
    (kvs : List (String × Json)) → (lvl : Nat) → stripWs (serPFields kvs lvl) = serFields kvs
  | [], _ => rfl
  | (k, v) :: kvs, lvl => by
    simp [serPFields, serFields, nlind, stripWs, stripWs_append,
      stripWs_serP v lvl, stripWs_serPFields kvs lvl]
end

/-- Tokens that can begin a serialized value. -/
def startsValue : JTok → Bool
  | JTok.tnull => true
  | JTok.tbool _ => true
  | JTok.tnum _ => true
  | JTok.tstr _ => true
  | JTok.lbrack => true
  | JTok.lbrace => true
  | _ => false

theorem serCore_head :
    ∀ j : Json, ∃ t ts', serCore j = t :: ts' ∧ startsValue t = true := by
  intro j
  match j with
  | Json.null => exact ⟨JTok.tnull, [], rfl, rfl⟩
  | Json.bool b => exact ⟨JTok.tbool b, [], rfl, rfl⟩
  | Json.num n => exact ⟨JTok.tnum n, [], rfl, rfl⟩
  | Json.str s => exact ⟨JTok.tstr s, [], rfl, rfl⟩
  | Json.arr [] => exact ⟨JTok.lbrack, [JTok.rbrack], rfl, rfl⟩
  | Json.arr (x :: xs) => exact ⟨JTok.lbrack, _, rfl, rfl⟩
  | Json.obj [] => exact ⟨JTok.lbrace, [JTok.rbrace], rfl, rfl⟩
  | Json.obj ((k, v) :: kvs) => exact ⟨JTok.lbrace, _, rfl, rfl⟩

theorem parseV_lbrack (f : Nat) (t : JTok) (ts : List JTok)
    (h : startsValue t = true) :
    parseV (f + 1) (JTok.lbrack :: t :: ts)
      = (match parseV f (t :: ts) with
         | some (x, ts2) =>
           (match parseItems f ts2 with
            | some (xs, ts3) => some (Json.arr (x :: xs), ts3)
            | none => none)
         | none => none) := by
  cases t <;> first
    | rfl
    | exact absurd h (by simp [startsValue])

theorem parse_ser_all : ∀ fuel : Nat,
    (∀ (j : Json) (rest : List JTok), (serCore j).length ≤ fuel →
      parseV fuel (serCore j ++ rest) = some (j, rest))
    ∧ (∀ (xs : List Json) (rest : List JTok), (serItems xs).length + 1 ≤ fuel →
      parseItems fuel (serItems xs ++ JTok.rbrack :: rest) = some (xs, rest))
    ∧ (∀ (kvs : List (String × Json)) (rest : List JTok),
        (serFields kvs).length + 1 ≤ fuel →
      parseFields fuel (serFields kvs ++ JTok.rbrace :: rest) = some (kvs, rest)) := by
  intro fuel
  induction fuel using Nat.strong_induction_on with
  | _ fuel ih =>
  match fuel with
  | 0 =>
    refine ⟨?_, ?_, ?_⟩
    · intro j rest hlen
      obtain ⟨t, ts', ht, -⟩ := serCore_head j
      rw [ht] at hlen
      simp at hlen
    · intro xs rest hlen; omega
    · intro kvs rest hlen; omega
  | f + 1 =>
    obtain ⟨ihV, ihI, ihF⟩ := ih f (Nat.lt_succ_self f)
    refine ⟨?_, ?_, ?_⟩
    · intro j rest hlen
      match j with
      | Json.null => rfl
      | Json.bool b => rfl
      | Json.num n => rfl
      | Json.str s => rfl
      | Json.arr [] => rfl
      | Json.arr (x :: xs) =>
        have hlen' : (serCore x).length + (serItems xs).length + 2 ≤ f + 1 := by
          simp [serCore, List.length_append] at hlen
          omega
        obtain ⟨t, ts', ht, hv⟩ := serCore_head x
        have hxpos : 1 ≤ (serCore x).length := by rw [ht]; simp
        have hassoc : serCore (Json.arr (x :: xs)) ++ rest
            = JTok.lbrack :: (serCore x ++ (serItems xs ++ (JTok.rbrack :: rest))) := by
          simp [serCore]
        rw [hassoc, ht, List.cons_append, parseV_lbrack f t _ hv,
          ← List.cons_append, ← ht]
        simp only [ihV x _ (by omega), ihI xs rest (by omega)]
      | Json.obj [] => rfl
      | Json.obj ((k, v) :: kvs) =>
        have hlen' : (serCore v).length + (serFields kvs).length + 4 ≤ f + 1 := by
          simp [serCore, List.length_append] at hlen
          omega
        have hassoc : serCore (Json.obj ((k, v) :: kvs)) ++ rest
            = JTok.lbrace :: JTok.tstr k :: JTok.colon ::
                (serCore v ++ (serFields kvs ++ (JTok.rbrace :: rest))) := by
          simp [serCore]
        rw [hassoc]
        show (match parseV f (serCore v ++ (serFields kvs ++ (JTok.rbrace :: rest))) with
          | some (v2, ts3) =>
            (match parseFields f ts3 with
             | some (kvs2, ts4) => some (Json.obj ((k, v2) :: kvs2), ts4)
             | none => none)
          | none => none) = some (Json.obj ((k, v) :: kvs), rest)
        simp only [ihV v _ (by omega), ihF kvs rest (by omega)]
    · intro xs rest hlen
      match xs with
      | [] => rfl
      | x :: xs =>
        have hlen' : (serCore x).length + (serItems xs).length + 2 ≤ f + 1 := by
          simp [serItems, List.length_append] at hlen
          omega
        have hxpos : 1 ≤ (serCore x).length := by
          obtain ⟨t, ts', ht, -⟩ := serCore_head x
          rw [ht]; simp
        have hassoc : serItems (x :: xs) ++ JTok.rbrack :: rest
            = JTok.comma :: (serCore x ++ (serItems xs ++ (JTok.rbrack :: rest))) := by
          simp [serItems]
        rw [hassoc]
        show (match parseV f (serCore x ++ (serItems xs ++ (JTok.rbrack :: rest))) with
          | some (x2, ts2) =>
            (match parseItems f ts2 with
             | some (xs2, ts3) => some (x2 :: xs2, ts3)
             | none => none)
          | none => none) = some (x :: xs, rest)
        simp only [ihV x _ (by omega), ihI xs rest (by omega)]
    · intro kvs rest hlen
      match kvs with
      | [] => rfl
      | (k, v) :: kvs =>
        have hlen' : (serCore v).length + (serFields kvs).length + 4 ≤ f + 1 := by
          simp [serFields, List.length_append] at hlen
          omega
        have hvpos : 1 ≤ (serCore v).length := by
          obtain ⟨t, ts', ht, -⟩ := serCore_head v
          rw [ht]; simp
        have hassoc : serFields ((k, v) :: kvs) ++ JTok.rbrace :: rest
            = JTok.comma :: JTok.tstr k :: JTok.colon ::
                (serCore v ++ (serFields kvs ++ (JTok.rbrace :: rest))) := by
          simp [serFields]
        rw [hassoc]
        show (match parseV f (serCore v ++ (serFields kvs ++ (JTok.rbrace :: rest))) with
          | some (v2, ts2) =>
            (match parseFields f ts2 with
             | some (kvs2, ts3) => some ((k, v2) :: kvs2, ts3)
             | none => none)
          | none => none) = some ((k, v) :: kvs, rest)
        simp only [ihV v _ (by omega), ihF kvs rest (by omega)]

theorem parseTokens_serCore : ∀ j : Json, parseTokens (serCore j) = some j := by
  intro j
  have hs := stripWs_serCore j
  have hrt := (parse_ser_all ((serCore j).length + 1)).1 j [] (Nat.le_succ _)
  rw [List.append_nil] at hrt
  simp [parseTokens, hs, hrt]

theorem parseTokens_serP : ∀ (j : Json) (lvl : Nat), parseTokens (serP j lvl) = some j := by
  intro j lvl
  have hs := stripWs_serP j lvl
  have hrt := (parse_ser_all ((serCore j).length + 1)).1 j [] (Nat.le_succ _)
  rw [List.append_nil] at hrt
  simp [parseTokens, hs, hrt]

end Oyna

namespace Oyna

theorem extract_error_of_not_obj :
    ∀ (relPath stem : String) (d : Json), is_obj d = false →
      extract_model_entry relPath stem d = Except.error "AttributeError" := by
  intro relPath stem d h
  cases d <;> simp_all [is_obj, extract_model_entry]

theorem build_entries_ok_of_objs :
    ∀ fs : List MFile,
      (∀ f ∈ fs, ∀ d, f.content = some d → is_obj d = true) →
      ∃ es, build_entries fs = Except.ok es := by
  intro fs
  induction fs with
  | nil => intro _; exact ⟨[], rfl⟩
  | cons f fs ih =>
    intro h
    obtain ⟨es, hes⟩ := ih (fun g hg d hd => h g (List.mem_cons_of_mem f hg) d hd)
    match hc : f.content with
    | none => exact ⟨es, by simp [build_entries, hc, hes]⟩
    | some d =>
      have hobj : is_obj d = true := h f (List.mem_cons_self f fs) d hc
      match d with
      | Json.null => simp [is_obj] at hobj
      | Json.bool _ => simp [is_obj] at hobj
      | Json.num _ => simp [is_obj] at hobj
      | Json.str _ => simp [is_obj] at hobj
      | Json.arr _ => simp [is_obj] at hobj
      | Json.obj kvs =>
        match hx : extract_model_entry f.path f.stem (Json.obj kvs) with
        | Except.ok e =>
          exact ⟨e :: es, by simp [build_entries, hc, hx, hes, Except.map]⟩
        | Except.error msg => simp [extract_model_entry] at hx

theorem build_entries_error_of_nonobj :
    ∀ fs : List MFile,
      (∃ f ∈ fs, ∃ d, f.content = some d ∧ is_obj d = false) →
      ∃ msg, build_entries fs = Except.error msg := by
  intro fs
  induction fs with
  | nil =>
    intro h
    obtain ⟨f, hf, -⟩ := h
    cases hf
  | cons f fs ih =>
    intro h
    obtain ⟨g, hg, d, hd, hobj⟩ := h
    rcases List.mem_cons.1 hg with rfl | hg2
    · exact ⟨"AttributeError",
        by simp [build_entries, hd, extract_error_of_not_obj g.path g.stem d hobj]⟩
    · obtain ⟨msg, hmsg⟩ := ih ⟨g, hg2, d, hd, hobj⟩
      match hc : f.content with
      | none => exact ⟨msg, by simp [build_entries, hc, hmsg]⟩
      | some d2 =>
        match hx : extract_model_entry f.path f.stem d2 with
        | Except.error m2 => exact ⟨m2, by simp [build_entries, hc, hx]⟩
        | Except.ok e => exact ⟨msg, by simp [build_entries, hc, hx, hmsg, Except.map]⟩

/-- C7 counterexample: a discovered file whose content is valid JSON but not a
key-value object (here an array) makes extract_model_entry raise, the
exception propagates uncaught, and the process exits 1 with no output — so
the exit code is not 0 on every invocation. -/
theorem C7_counterexample :
    extract_model_entry "models/scores.json" "scores" (Json.arr [])
        = Except.error "AttributeError"
    ∧ generate_manifest_main "2025-01-01T00:00:00+00:00"
        [{ path := "models/scores.json", stem := "scores",
           content := some (Json.arr []) }] false
      = (none, 1) := by
  exact ⟨rfl, rfl⟩

/-- C7 (amended): the builder exits 0 on every invocation in which each
document that loads is a key-value object — in particular regardless of
per-file load failures, which are skipped; but a loaded document whose
top-level value is not an object raises an uncaught AttributeError and the
process exits non-zero. -/
theorem C7_builder_exit_characterization :
    ∀ (genAt : String) (files : List MFile) (pretty : Bool),
      ((∀ f ∈ files, ∀ d, f.content = some d → is_obj d = true) →
        (generate_manifest_main genAt files pretty).2 = 0)
      ∧ ((∃ f ∈ files, ∃ d, f.content = some d ∧ is_obj d = false) →
        (generate_manifest_main genAt files pretty).2 = 1) := by
  intro genAt files pretty
  have hperm : find_model_files files |>.Perm files :=
    List.perm_insertionSort mfileLe files
  constructor
  · intro h
    obtain ⟨es, hes⟩ := build_entries_ok_of_objs (find_model_files files)
      (fun f hf d hd => h f (hperm.mem_iff.1 hf) d hd)
    simp [generate_manifest_main, build_manifest, hes, Except.map]
  · intro h
    obtain ⟨f, hf, d, hd, hobj⟩ := h
    obtain ⟨msg, hmsg⟩ := build_entries_error_of_nonobj (find_model_files files)
      ⟨f, hperm.mem_iff.2 hf, d, hd, hobj⟩
    simp [generate_manifest_main, build_manifest, hmsg, Except.map]

/-- C7 witness: a run over one loadable object document (exit 0) and a run
over one loaded array document (exit 1), exercising both directions. -/
theorem C7_builder_exit_characterization_witness :
    (generate_manifest_main "2025-01-01T00:00:00+00:00"
        [{ path := "models/pump_manifest.json", stem := "pump_manifest",
           content := some (Json.obj []) }] true).2 = 0
    ∧ (generate_manifest_main "2025-01-01T00:00:00+00:00"
        [{ path := "models/scores_list.json", stem := "scores_list",
           content := some (Json.arr []) }] true).2 = 1 := by
  constructor
  · refine (C7_builder_exit_characterization "2025-01-01T00:00:00+00:00" _ true).1 ?_
    intro f hf d hd
    rcases List.mem_singleton.1 hf with rfl
    cases hd
    rfl
  · exact (C7_builder_exit_characterization "2025-01-01T00:00:00+00:00" _ true).2
      ⟨_, List.mem_singleton.2 rfl, Json.arr [], rfl, rfl⟩

/-- C9: whenever the builder completes, the pretty-printed serialization and
the compact serialization are both emitted with exit 0 and both parse back to
the manifest document itself, so the two parses are logically equal
structures (same keys, same entry count, same entry field values); the pretty
toggle never changes semantic content. -/
theorem C9_pretty_compact_round_trip :
    ∀ (genAt : String) (files : List MFile) (m : Manifest),
      build_manifest genAt files = Except.ok m →
      (generate_manifest_main genAt files true).1 = some (serP (manifestJson m) 0)
      ∧ (generate_manifest_main genAt files false).1 = some (serCore (manifestJson m))
      ∧ parseTokens (serP (manifestJson m) 0) = some (manifestJson m)
      ∧ parseTokens (serCore (manifestJson m)) = some (manifestJson m) := by
  intro genAt files m h
  refine ⟨by simp [generate_manifest_main, h], by simp [generate_manifest_main, h],
    parseTokens_serP (manifestJson m) 0, parseTokens_serCore (manifestJson m)⟩

/-- C9 witness: the empty-directory build (spec Scenario D) completes, and
both of its serializations parse back to its manifest document. -/
theorem C9_pretty_compact_round_trip_witness :
    ∃ m, build_manifest "2025-01-01T00:00:00+00:00" [] = Except.ok m
      ∧ (generate_manifest_main "2025-01-01T00:00:00+00:00" [] true).1
          = some (serP (manifestJson m) 0)
      ∧ (generate_manifest_main "2025-01-01T00:00:00+00:00" [] false).1
          = some (serCore (manifestJson m))
      ∧ parseTokens (serP (manifestJson m) 0) = some (manifestJson m)
      ∧ parseTokens (serCore (manifestJson m)) = some (manifestJson m) := by
  refine ⟨_, rfl,
    C9_pretty_compact_round_trip "2025-01-01T00:00:00+00:00" [] _ rfl⟩

end Oyna
